import Mathlib

/-!
Verification of a UDP reliable file-transfer program (protocol.py,
client.py, server.py) against its natural-language specification.

Modelling conventions:
* bytes are natural numbers below 256, byte strings are `List Nat`;
* decoded UTF-8 text is `List Char` (all protocol strings are ASCII,
  where the UTF-8 encoding coincides with the code points);
* machine integers are natural numbers, reduced modulo 2 ^ w exactly
  where the Python `struct` packing bounds them;
* wall-clock instants are natural numbers (only comparisons of time
  differences against the constant TIMEOUT matter);
* sockets are replaced by explicit lists of sent packets, file handles
  by explicit byte lists, and the peer address bookkeeping (which no
  claim mentions) is omitted.
-/

/-! ## protocol.py : constants -/

def TYPE_SYN : Nat := 0
def TYPE_SYN_ACK : Nat := 1
def TYPE_DATA : Nat := 2
def TYPE_ACK : Nat := 3
def TYPE_FIN : Nat := 4
def TYPE_FIN_ACK : Nat := 5
def TYPE_ERROR : Nat := 6

def MAX_PAYLOAD_SIZE : Nat := 1024
def HEADER_SIZE : Nat := 12

/-! ## protocol.py : byte-level packing (the struct module) -/

/-- Big-endian bytes of a 32-bit unsigned integer (struct format "I";
the divisors are 2 ^ 24, 2 ^ 16 and 2 ^ 8). -/
def be32 (n : Nat) : List Nat :=
  [n / 16777216 % 256, n / 65536 % 256, n / 256 % 256, n % 256]

/-- Big-endian bytes of a 16-bit unsigned integer (struct format "H"). -/
def be16 (n : Nat) : List Nat :=
  [n / 256 % 256, n % 256]

/-- Numeric value of a big-endian byte sequence (struct.unpack). -/
def beVal (l : List Nat) : Nat :=
  l.foldl (fun a b => a * 256 + b) 0

/-- The 11 header bytes without the checksum:
struct.pack("!B I I H", msg_type, seq_num, session_id, payload_length). -/
def headerNoChecksum (msg_type seq_num session_id payload_length : Nat) : List Nat :=
  [msg_type % 256] ++ be32 seq_num ++ be32 session_id ++ be16 payload_length

/-- XOR fold over a byte list. -/
def xorBytes (l : List Nat) : Nat :=
  l.foldl Nat.xor 0

/-! ## protocol.py : class Packet -/

structure Packet where
  msg_type : Nat
  seq_num : Nat
  session_id : Nat
  payload : List Nat
  payload_length : Nat
  checksum : Nat
  deriving DecidableEq, Repr

/-- Packet._calculate_checksum: XOR sum of the bytes of
struct.pack("!B I I H", ...) followed by the payload bytes (two
successive loops in the source). -/
def calculate_checksum (msg_type seq_num session_id payload_length : Nat)
    (payload : List Nat) : Nat :=
  payload.foldl Nat.xor
    ((headerNoChecksum msg_type seq_num session_id payload_length).foldl Nat.xor 0)

/-- Packet.__init__: stores the four arguments, sets
payload_length = len(payload) and checksum = self._calculate_checksum(). -/
def Packet.make (msg_type seq_num session_id : Nat) (payload : List Nat) : Packet :=
  { msg_type := msg_type
    seq_num := seq_num
    session_id := session_id
    payload := payload
    payload_length := payload.length
    checksum := calculate_checksum msg_type seq_num session_id payload.length payload }

/-- Packet.to_bytes: struct.pack("!B I I H B", msg_type, seq_num,
session_id, payload_length, checksum) followed by the payload. -/
def Packet.to_bytes (p : Packet) : List Nat :=
  headerNoChecksum p.msg_type p.seq_num p.session_id p.payload_length
    ++ [p.checksum] ++ p.payload

/-- Packet.from_bytes: fewer than HEADER_SIZE = 12 bytes raises
"Packet too short"; otherwise struct.unpack("!B I I H B") extracts the
fields, the payload is truncated to payload_length bytes, the packet is
reconstructed through Packet.__init__ and its checksum compared with the
received checksum byte, raising "Checksum mismatch" on disagreement. -/
def Packet.from_bytes (data : List Nat) : Except String Packet :=
  match data with
  | t :: a1 :: a2 :: a3 :: a4 :: b1 :: b2 :: b3 :: b4 :: l1 :: l2 :: ck :: rest =>
    let payload_length := beVal [l1, l2]
    let payload := rest.take payload_length
    let packet := Packet.make t (beVal [a1, a2, a3, a4]) (beVal [b1, b2, b3, b4]) payload
    if packet.checksum ≠ ck then Except.error "Checksum mismatch"
    else Except.ok packet
  | _ => Except.error "Packet too short"

/-! ## arithmetic facts about the byte packing -/

theorem beVal_be16 (n : Nat) (h : n < 65536) : beVal (be16 n) = n := by
  simp [beVal, be16, List.foldl]
  omega

theorem beVal_be32 (n : Nat) (h : n < 4294967296) : beVal (be32 n) = n := by
  simp [beVal, be32, List.foldl]
  omega

/-- Unfolding of the decoder on an input of at least 12 bytes. -/
theorem from_bytes_cons (t a1 a2 a3 a4 b1 b2 b3 b4 l1 l2 ck : Nat) (rest : List Nat) :
    Packet.from_bytes
        (t :: a1 :: a2 :: a3 :: a4 :: b1 :: b2 :: b3 :: b4 :: l1 :: l2 :: ck :: rest)
      = (if (Packet.make t (beVal [a1, a2, a3, a4]) (beVal [b1, b2, b3, b4])
              (rest.take (beVal [l1, l2]))).checksum ≠ ck
         then Except.error "Checksum mismatch"
         else Except.ok (Packet.make t (beVal [a1, a2, a3, a4]) (beVal [b1, b2, b3, b4])
                (rest.take (beVal [l1, l2])))) := rfl

/-- The decoder rejects inputs shorter than the 12-byte header. -/
theorem from_bytes_short (data : List Nat) (h : data.length < 12) :
    Packet.from_bytes data = Except.error "Packet too short" := by
  rcases data with _ | ⟨t, _ | ⟨a1, _ | ⟨a2, _ | ⟨a3, _ | ⟨a4, _ | ⟨b1, _ | ⟨b2, _ |
    ⟨b3, _ | ⟨b4, _ | ⟨l1, _ | ⟨l2, _ | ⟨ck, rest⟩⟩⟩⟩⟩⟩⟩⟩⟩⟩⟩⟩ <;>
    first
      | rfl
      | (exfalso; simp only [List.length_cons] at h; omega)

/-- Decoding an encoded in-range packet restores it (shared helper). -/
theorem from_bytes_to_bytes (m s i : Nat) (pl : List Nat)
    (hm : m < 256) (hs : s < 4294967296) (hi : i < 4294967296)
    (hl : pl.length < 65536) :
    Packet.from_bytes (Packet.make m s i pl).to_bytes
      = Except.ok (Packet.make m s i pl) := by
  have hbytes : (Packet.make m s i pl).to_bytes
      = (m % 256) :: (s / 16777216 % 256) :: (s / 65536 % 256) :: (s / 256 % 256) ::
        (s % 256) :: (i / 16777216 % 256) :: (i / 65536 % 256) :: (i / 256 % 256) ::
        (i % 256) :: (pl.length / 256 % 256) :: (pl.length % 256) ::
        (Packet.make m s i pl).checksum :: pl := by
    simp [Packet.to_bytes, Packet.make, headerNoChecksum, be32, be16]
  rw [hbytes, from_bytes_cons]
  have e1 : beVal [s / 16777216 % 256, s / 65536 % 256, s / 256 % 256, s % 256] = s :=
    beVal_be32 s hs
  have e2 : beVal [i / 16777216 % 256, i / 65536 % 256, i / 256 % 256, i % 256] = i :=
    beVal_be32 i hi
  have e3 : beVal [pl.length / 256 % 256, pl.length % 256] = pl.length :=
    beVal_be16 pl.length hl
  have e4 : m % 256 = m := Nat.mod_eq_of_lt hm
  rw [e1, e2, e3, e4, List.take_length]
  simp [Packet.make]

/-- C1. Codec round-trip: for every packet whose fields are in range
(msg_type < 2^8, seq_num < 2^32, session_id < 2^32,
len(payload) < 2^16), Packet.from_bytes applied to Packet.to_bytes
returns the identical packet, so msg_type, seq_num, session_id,
payload_length, checksum and payload are all preserved. -/
theorem packet_roundtrip (m s i : Nat) (pl : List Nat)
    (hm : m < 256) (hs : s < 4294967296) (hi : i < 4294967296)
    (hl : pl.length < 65536) :
    Packet.from_bytes (Packet.make m s i pl).to_bytes
      = Except.ok (Packet.make m s i pl) :=
  from_bytes_to_bytes m s i pl hm hs hi hl

/-- C1 witness: the round-trip at a concrete in-range packet. -/
theorem packet_roundtrip_witness :
    Packet.from_bytes (Packet.make 2 5 7 [10, 20, 30]).to_bytes
      = Except.ok (Packet.make 2 5 7 [10, 20, 30]) :=
  packet_roundtrip 2 5 7 [10, 20, 30] (by decide) (by decide) (by decide) (by decide)

/-- C6. Decode failure condition: Packet.from_bytes fails exactly when
the input is shorter than 12 bytes or when the checksum reconstructed
from the extracted header fields together with the payload truncated to
payload_length bytes differs from the stored checksum byte; in every
other case it returns that reconstructed packet, so trailing bytes
beyond payload_length are discarded rather than causing failure. -/
theorem from_bytes_failure_iff (data : List Nat) :
    (data.length < HEADER_SIZE → Packet.from_bytes data = Except.error "Packet too short")
    ∧ (HEADER_SIZE ≤ data.length →
        ∃ t a1 a2 a3 a4 b1 b2 b3 b4 l1 l2 ck rest,
          data = t :: a1 :: a2 :: a3 :: a4 :: b1 :: b2 :: b3 :: b4 :: l1 :: l2 :: ck :: rest
          ∧ (∀ p, Packet.from_bytes data = Except.ok p ↔
              ((Packet.make t (beVal [a1, a2, a3, a4]) (beVal [b1, b2, b3, b4])
                  (rest.take (beVal [l1, l2]))).checksum = ck
                ∧ p = Packet.make t (beVal [a1, a2, a3, a4]) (beVal [b1, b2, b3, b4])
                      (rest.take (beVal [l1, l2]))))
          ∧ ((Packet.make t (beVal [a1, a2, a3, a4]) (beVal [b1, b2, b3, b4])
                (rest.take (beVal [l1, l2]))).checksum ≠ ck →
              Packet.from_bytes data = Except.error "Checksum mismatch")) := by
  constructor
  · intro h
    exact from_bytes_short data h
  · intro h
    rcases data with _ | ⟨t, _ | ⟨a1, _ | ⟨a2, _ | ⟨a3, _ | ⟨a4, _ | ⟨b1, _ | ⟨b2, _ |
      ⟨b3, _ | ⟨b4, _ | ⟨l1, _ | ⟨l2, _ | ⟨ck, rest⟩⟩⟩⟩⟩⟩⟩⟩⟩⟩⟩⟩ <;>
      first
        | (exfalso; simp only [HEADER_SIZE, List.length_cons, List.length_nil] at h; omega)
        | skip
    refine ⟨t, a1, a2, a3, a4, b1, b2, b3, b4, l1, l2, ck, rest, rfl, ?_, ?_⟩
    · intro p
      rw [from_bytes_cons]
      by_cases hck : (Packet.make t (beVal [a1, a2, a3, a4]) (beVal [b1, b2, b3, b4])
          (rest.take (beVal [l1, l2]))).checksum = ck
      · simp [hck, eq_comm]
      · simp [hck]
    · intro hck
      rw [from_bytes_cons, if_pos hck]

/-- C6 witness: a 3-byte datagram is rejected as too short, and a
concrete well-formed 12-byte datagram decodes successfully. -/
theorem from_bytes_failure_iff_witness :
    Packet.from_bytes [1, 2, 3] = Except.error "Packet too short"
    ∧ 12 ≤ ([6, 0, 0, 0, 9, 0, 0, 0, 4, 0, 0, 11] : List Nat).length :=
  ⟨(from_bytes_failure_iff [1, 2, 3]).1 (by decide), by decide⟩

set_option maxRecDepth 20000 in
/-- C8 counterexample: a 1025-byte payload is neither rejected by
Packet.__init__ nor by Packet.from_bytes — the decoder returns a packet
with payload_length = 1025 > MAX_PAYLOAD_SIZE. -/
theorem oversized_payload_accepted :
    ∃ p, Packet.from_bytes (Packet.make TYPE_DATA 0 0 (List.replicate 1025 0)).to_bytes
          = Except.ok p
      ∧ MAX_PAYLOAD_SIZE < p.payload_length := by
  refine ⟨Packet.make TYPE_DATA 0 0 (List.replicate 1025 0), ?_, ?_⟩
  · exact from_bytes_to_bytes TYPE_DATA 0 0 (List.replicate 1025 0)
      (by decide) (by decide) (by decide) (by simp)
  · simp [Packet.make, MAX_PAYLOAD_SIZE]

/-- C8 amended: the codec never enforces payload_length ≤ 1024.  What
holds instead: every decoded packet has payload_length = len(payload)
and payload_length ≤ len(input) − 12, so for datagrams within the
HEADER_SIZE + MAX_PAYLOAD_SIZE = 1036-byte bound that every recvfrom
call in the program imposes, decoded packets satisfy
payload_length ≤ MAX_PAYLOAD_SIZE. -/
theorem decoded_payload_bound (data : List Nat) (p : Packet)
    (h : Packet.from_bytes data = Except.ok p) :
    p.payload_length = p.payload.length
    ∧ p.payload_length ≤ data.length - HEADER_SIZE
    ∧ (data.length ≤ HEADER_SIZE + MAX_PAYLOAD_SIZE →
        p.payload_length ≤ MAX_PAYLOAD_SIZE) := by
  rcases data with _ | ⟨t, _ | ⟨a1, _ | ⟨a2, _ | ⟨a3, _ | ⟨a4, _ | ⟨b1, _ | ⟨b2, _ |
    ⟨b3, _ | ⟨b4, _ | ⟨l1, _ | ⟨l2, _ | ⟨ck, rest⟩⟩⟩⟩⟩⟩⟩⟩⟩⟩⟩⟩ <;>
    first
      | (exfalso; exact Except.noConfusion h)
      | skip
  rw [from_bytes_cons] at h
  by_cases hck : (Packet.make t (beVal [a1, a2, a3, a4]) (beVal [b1, b2, b3, b4])
      (rest.take (beVal [l1, l2]))).checksum = ck
  · rw [if_neg (by simpa using hck)] at h
    obtain rfl : Packet.make t (beVal [a1, a2, a3, a4]) (beVal [b1, b2, b3, b4])
        (rest.take (beVal [l1, l2])) = p := by
      exact Except.ok.inj h
    refine ⟨rfl, ?_, ?_⟩ <;>
      (simp [Packet.make, HEADER_SIZE, MAX_PAYLOAD_SIZE, List.length_cons]; try omega)
  · rw [if_pos (by simpa using hck)] at h
    exact absurd h (by simp)

/-- C8 amended witness: the bound at a concrete decoded packet. -/
theorem decoded_payload_bound_witness :
    (Packet.make 3 1 1 [5]).payload_length
        = (Packet.make 3 1 1 [5]).payload.length
    ∧ (Packet.make 3 1 1 [5]).payload_length
        ≤ ((Packet.make 3 1 1 [5]).to_bytes).length - HEADER_SIZE
    ∧ (((Packet.make 3 1 1 [5]).to_bytes).length ≤ HEADER_SIZE + MAX_PAYLOAD_SIZE →
        (Packet.make 3 1 1 [5]).payload_length ≤ MAX_PAYLOAD_SIZE) :=
  decoded_payload_bound ((Packet.make 3 1 1 [5]).to_bytes) (Packet.make 3 1 1 [5]) rfl

/-- C9. Checksum definition and well-formedness: for every packet built
by Packet.__init__, the header-without-checksum has exactly 11 bytes,
the stored checksum is the XOR of those 11 bytes together with all
payload bytes, payload_length equals len(payload), and the twelfth byte
(index 11) of the encoded wire packet carries that checksum. -/
theorem checksum_definition (m s i : Nat) (pl : List Nat) :
    (headerNoChecksum m s i pl.length).length = 11
    ∧ (Packet.make m s i pl).checksum
        = xorBytes (headerNoChecksum m s i pl.length ++ pl)
    ∧ (Packet.make m s i pl).payload_length = pl.length
    ∧ (Packet.make m s i pl).to_bytes.getD 11 0 = (Packet.make m s i pl).checksum := by
  refine ⟨by simp [headerNoChecksum, be32, be16], ?_, rfl, ?_⟩
  · simp [Packet.make, calculate_checksum, xorBytes, List.foldl_append]
  · simp [Packet.to_bytes, Packet.make, headerNoChecksum, be32, be16]

/-! ## client.py : upload chunking (UDPClient.upload_file) -/

/-- The chunk-reading loop of upload_file: repeated
f.read(MAX_PAYLOAD_SIZE) until an empty read, appending each chunk. -/
def chunkFile (data : List Nat) : List (List Nat) :=
  if h : data = [] then []
  else data.take MAX_PAYLOAD_SIZE :: chunkFile (data.drop MAX_PAYLOAD_SIZE)
termination_by data.length
decreasing_by
  have hp := List.length_pos.mpr h
  simp [List.length_drop, MAX_PAYLOAD_SIZE]
  omega

theorem chunkFile_nil : chunkFile [] = [] := by
  simp [chunkFile]

theorem chunkFile_cons (data : List Nat) (h : data ≠ []) :
    chunkFile data
      = data.take MAX_PAYLOAD_SIZE :: chunkFile (data.drop MAX_PAYLOAD_SIZE) := by
  rw [chunkFile]
  simp [h]

theorem chunkFile_length_bound :
    ∀ n, ∀ data : List Nat, data.length ≤ n →
      (chunkFile data).length = (data.length + 1023) / 1024 := by
  intro n
  induction n with
  | zero =>
    intro data hle
    have hnil : data = [] := List.eq_nil_of_length_eq_zero (Nat.le_zero.mp hle)
    subst hnil
    simp [chunkFile_nil]
  | succ n ih =>
    intro data hle
    by_cases h : data = []
    · subst h
      simp [chunkFile_nil]
    · have hp := List.length_pos.mpr h
      have hrec : (data.drop MAX_PAYLOAD_SIZE).length ≤ n := by
        simp [List.length_drop, MAX_PAYLOAD_SIZE]
        omega
      rw [chunkFile_cons data h, List.length_cons, ih _ hrec]
      simp [List.length_drop, MAX_PAYLOAD_SIZE]
      omega

theorem chunkFile_length (data : List Nat) :
    (chunkFile data).length = (data.length + 1023) / 1024 :=
  chunkFile_length_bound data.length data le_rfl

theorem chunkFile_flatten_bound :
    ∀ n, ∀ data : List Nat, data.length ≤ n → (chunkFile data).flatten = data := by
  intro n
  induction n with
  | zero =>
    intro data hle
    have hnil : data = [] := List.eq_nil_of_length_eq_zero (Nat.le_zero.mp hle)
    subst hnil
    simp [chunkFile_nil]
  | succ n ih =>
    intro data hle
    by_cases h : data = []
    · subst h
      simp [chunkFile_nil]
    · have hp := List.length_pos.mpr h
      have hrec : (data.drop MAX_PAYLOAD_SIZE).length ≤ n := by
        simp [List.length_drop, MAX_PAYLOAD_SIZE]
        omega
      rw [chunkFile_cons data h]
      simp [ih _ hrec]

theorem chunkFile_flatten (data : List Nat) : (chunkFile data).flatten = data :=
  chunkFile_flatten_bound data.length data le_rfl

theorem chunkFile_getD_bound :
    ∀ n, ∀ data : List Nat, data.length ≤ n →
      ∀ i, i < (chunkFile data).length →
        (chunkFile data).getD i []
          = (data.drop (MAX_PAYLOAD_SIZE * i)).take MAX_PAYLOAD_SIZE := by
  intro n
  induction n with
  | zero =>
    intro data hle i hi
    have hnil : data = [] := List.eq_nil_of_length_eq_zero (Nat.le_zero.mp hle)
    subst hnil
    simp [chunkFile_nil] at hi
  | succ n ih =>
    intro data hle i hi
    by_cases h : data = []
    · subst h
      simp [chunkFile_nil] at hi
    · have hp := List.length_pos.mpr h
      have hrec : (data.drop MAX_PAYLOAD_SIZE).length ≤ n := by
        simp [List.length_drop, MAX_PAYLOAD_SIZE]
        omega
      rw [chunkFile_cons data h] at hi ⊢
      cases i with
      | zero =>
        simp
      | succ i =>
        simp only [List.getD_cons_succ]
        rw [ih _ hrec i (by simpa using hi), List.drop_drop]
        have harith : MAX_PAYLOAD_SIZE + MAX_PAYLOAD_SIZE * i
            = MAX_PAYLOAD_SIZE * (i + 1) := by ring
        rw [harith]

theorem chunkFile_getD (data : List Nat) (i : Nat) (hi : i < (chunkFile data).length) :
    (chunkFile data).getD i []
      = (data.drop (MAX_PAYLOAD_SIZE * i)).take MAX_PAYLOAD_SIZE :=
  chunkFile_getD_bound data.length data le_rfl i hi

/-- upload_file: after connect, self.seq_num += 1 makes
base_seq = syn_seq + 1, and the pre-built packet list is
packets[i] = Packet(TYPE_DATA, base_seq + i, session_id, chunks[i]). -/
def uploadPackets (syn_seq session_id : Nat) (fileData : List Nat) : List Packet :=
  (chunkFile fileData).enum.map fun ic =>
    Packet.make TYPE_DATA (syn_seq + 1 + ic.1) session_id ic.2

/-- After the window loop, self.seq_num = base_seq + total_chunks and
send_fin transmits Packet(TYPE_FIN, self.seq_num, session_id). -/
def uploadFin (syn_seq session_id : Nat) (fileData : List Nat) : Packet :=
  Packet.make TYPE_FIN (syn_seq + 1 + (chunkFile fileData).length) session_id []

/-- C2. Upload chunking and sequence numbering: a nonempty file of L
bytes is split into N = ceil(L/1024) DATA packets whose payloads are the
consecutive 1024-byte chunks of the file (the last of size L mod 1024
when L is not a multiple of 1024), carrying sequence numbers
base_seq + i for i < N with base_seq = syn_seq + 1, and the FIN sent
after the window completes has seq = base_seq + N. -/
theorem upload_chunking (syn_seq session_id : Nat) (fileData : List Nat)
    (hpos : fileData ≠ []) :
    (chunkFile fileData).length = (fileData.length + 1023) / 1024
    ∧ (uploadPackets syn_seq session_id fileData).length = (chunkFile fileData).length
    ∧ (chunkFile fileData).flatten = fileData
    ∧ (∀ i, i < (chunkFile fileData).length →
        (uploadPackets syn_seq session_id fileData).getD i (Packet.make 0 0 0 [])
          = Packet.make TYPE_DATA (syn_seq + 1 + i) session_id
              ((fileData.drop (MAX_PAYLOAD_SIZE * i)).take MAX_PAYLOAD_SIZE)
        ∧ ((chunkFile fileData).getD i []).length
            = (if i + 1 < (chunkFile fileData).length then MAX_PAYLOAD_SIZE
               else if fileData.length % MAX_PAYLOAD_SIZE = 0 then MAX_PAYLOAD_SIZE
               else fileData.length % MAX_PAYLOAD_SIZE))
    ∧ uploadFin syn_seq session_id fileData
        = Packet.make TYPE_FIN (syn_seq + 1 + (chunkFile fileData).length)
            session_id [] := by
  refine ⟨chunkFile_length fileData, by simp [uploadPackets], chunkFile_flatten fileData,
    ?_, rfl⟩
  intro i hi
  constructor
  · have hlen : i < (uploadPackets syn_seq session_id fileData).length := by
      simpa [uploadPackets] using hi
    rw [List.getD_eq_getElem _ _ hlen]
    simp only [uploadPackets, List.getElem_map, List.getElem_enum]
    rw [← chunkFile_getD fileData i hi, List.getD_eq_getElem _ _ hi]
  · rw [chunkFile_getD fileData i hi]
    have hN := chunkFile_length fileData
    rw [hN] at hi ⊢
    simp only [List.length_take, List.length_drop, MAX_PAYLOAD_SIZE] at *
    split_ifs <;> omega

/-- C2 witness: the 4097-byte instance — 5 DATA packets, the fifth of
payload size 1, sequence numbers syn_seq+1 .. syn_seq+5, FIN at
syn_seq+6. -/
theorem upload_chunking_witness :
    (chunkFile (List.replicate 4097 0)).length = 5
    ∧ ((chunkFile (List.replicate 4097 0)).getD 4 []).length = 1
    ∧ (uploadPackets 7 3 (List.replicate 4097 0)).getD 4 (Packet.make 0 0 0 [])
        = Packet.make TYPE_DATA (7 + 1 + 4) 3
            (((List.replicate (4097 : Nat) 0).drop (MAX_PAYLOAD_SIZE * 4)).take
              MAX_PAYLOAD_SIZE)
    ∧ uploadFin 7 3 (List.replicate 4097 0)
        = Packet.make TYPE_FIN (7 + 1 + (chunkFile (List.replicate 4097 0)).length)
            3 [] := by
  have hne : (List.replicate (4097 : Nat) (0 : Nat)) ≠ [] := by
    intro hc
    have hlen := congrArg List.length hc
    simp only [List.length_replicate, List.length_nil] at hlen
    omega
  obtain ⟨h1, h2, h3, h4, h5⟩ := upload_chunking 7 3 (List.replicate 4097 0) hne
  have hN : (chunkFile (List.replicate (4097 : Nat) 0)).length = 5 := by
    rw [h1, List.length_replicate]
  have hchunk := (h4 4 (by rw [hN]; omega)).2
  rw [hN, List.length_replicate] at hchunk
  have hval : (if 4 + 1 < 5 then MAX_PAYLOAD_SIZE
      else if 4097 % MAX_PAYLOAD_SIZE = 0 then MAX_PAYLOAD_SIZE
      else 4097 % MAX_PAYLOAD_SIZE) = 1 := by decide
  rw [hval] at hchunk
  exact ⟨hN, hchunk, (h4 4 (by rw [hN]; omega)).1, h5⟩

/-! ## client.py : the Go-Back-N window loop of upload_file -/

/-- The mutable loop state of upload_file: base (index of the oldest
unacknowledged chunk) and next_idx (index of the next chunk to send). -/
structure GBNState where
  base : Nat
  next_idx : Nat
  deriving DecidableEq, Repr

/-- One loop iteration observes either a decoded datagram or a socket
timeout.  (A datagram that fails to decode raises out of the loop and is
not an iteration at all.) -/
inductive GBNEvent where
  | recv (p : Packet)
  | timeout
  deriving DecidableEq, Repr

/-- The inner transmit loop: while next_idx < total_chunks and
next_idx < base + window_size, send packets[next_idx] and advance
next_idx.  Transmissions themselves are fixed by next_idx, so only the
state evolution is recorded. -/
def sendFill (N window : Nat) (s : GBNState) : GBNState :=
  if h : s.next_idx < N ∧ s.next_idx < s.base + window then
    sendFill N window { s with next_idx := s.next_idx + 1 }
  else s
termination_by N - s.next_idx
decreasing_by
  omega

/-- The receive part of a loop iteration: a matching ACK whose
acked_idx = ack.seq - base_seq satisfies 0 ≤ acked_idx < N and
acked_idx ≥ base advances base to acked_idx + 1; a timeout resets
next_idx to base; everything else leaves the state unchanged.
acked_idx is an integer because the Python subtraction may be
negative. -/
def recvStep (N base_seq sid : Nat) (s : GBNState) (ev : GBNEvent) : GBNState :=
  match ev with
  | GBNEvent.timeout => { s with next_idx := s.base }
  | GBNEvent.recv p =>
    if p.session_id = sid then
      if p.msg_type = TYPE_ACK then
        if 0 ≤ (p.seq_num : Int) - (base_seq : Int)
            ∧ (p.seq_num : Int) - (base_seq : Int) < (N : Int)
            ∧ (s.base : Int) ≤ (p.seq_num : Int) - (base_seq : Int) then
          { s with base := ((p.seq_num : Int) - (base_seq : Int) + 1).toNat }
        else s
      else s
    else s

/-- One full iteration of the while base < total_chunks loop. -/
def gbnIter (N window base_seq sid : Nat) (s : GBNState) (ev : GBNEvent) : GBNState :=
  recvStep N base_seq sid (sendFill N window s) ev

theorem sendFill_bound :
    ∀ k N window : Nat, ∀ s : GBNState, N - s.next_idx ≤ k →
      (sendFill N window s).base = s.base
      ∧ (sendFill N window s).next_idx
          = max s.next_idx (min N (s.base + window)) := by
  intro k
  induction k with
  | zero =>
    intro N window s hk
    rw [sendFill]
    have hng : ¬ (s.next_idx < N ∧ s.next_idx < s.base + window) := by omega
    rw [dif_neg hng]
    exact ⟨rfl, by omega⟩
  | succ k ih =>
    intro N window s hk
    rw [sendFill]
    by_cases hg : s.next_idx < N ∧ s.next_idx < s.base + window
    · rw [dif_pos hg]
      obtain ⟨hb, hn⟩ := ih N window { s with next_idx := s.next_idx + 1 } (by simp; omega)
      simp only at hb hn
      refine ⟨hb, ?_⟩
      rw [hn]
      omega
    · rw [dif_neg hg]
      exact ⟨rfl, by omega⟩

theorem sendFill_spec (N window : Nat) (s : GBNState) :
    (sendFill N window s).base = s.base
    ∧ (sendFill N window s).next_idx = max s.next_idx (min N (s.base + window)) :=
  sendFill_bound (N - s.next_idx) N window s le_rfl

/-- C4. Go-Back-N window advance: an ACK with matching session-id whose
acked_idx = ack.seq - base_seq satisfies base ≤ acked_idx < N moves base
to acked_idx + 1; an ACK outside that range leaves base unchanged; a
receive timeout resets next_idx to base.  base never decreases across an
iteration, and the loop invariant base ≤ next_idx ≤ N holds at every
send point. -/
theorem gbn_window_step (N window base_seq sid : Nat) (s : GBNState) :
    (∀ p : Packet, p.msg_type = TYPE_ACK → p.session_id = sid →
        (s.base : Int) ≤ (p.seq_num : Int) - (base_seq : Int) →
        (p.seq_num : Int) - (base_seq : Int) < (N : Int) →
        ((recvStep N base_seq sid s (GBNEvent.recv p)).base : Int)
          = (p.seq_num : Int) - (base_seq : Int) + 1)
    ∧ (∀ p : Packet,
        ¬ ((s.base : Int) ≤ (p.seq_num : Int) - (base_seq : Int)
            ∧ (p.seq_num : Int) - (base_seq : Int) < (N : Int)) →
        (recvStep N base_seq sid s (GBNEvent.recv p)).base = s.base)
    ∧ (recvStep N base_seq sid s GBNEvent.timeout).next_idx = s.base
    ∧ (recvStep N base_seq sid s GBNEvent.timeout).base = s.base
    ∧ (∀ ev, s.base ≤ (gbnIter N window base_seq sid s ev).base)
    ∧ (∀ ev, s.base ≤ s.next_idx → s.next_idx ≤ N →
        (gbnIter N window base_seq sid s ev).base ≤ N
        ∧ (gbnIter N window base_seq sid s ev).next_idx ≤ N
        ∧ (sendFill N window (gbnIter N window base_seq sid s ev)).base
            ≤ (sendFill N window (gbnIter N window base_seq sid s ev)).next_idx
        ∧ (sendFill N window (gbnIter N window base_seq sid s ev)).next_idx ≤ N) := by
  refine ⟨?_, ?_, rfl, rfl, ?_, ?_⟩
  · intro p h1 h2 h3 h4
    have h0 : (0 : Int) ≤ (p.seq_num : Int) - (base_seq : Int) :=
      le_trans (Int.natCast_nonneg s.base) h3
    simp only [recvStep, h1, h2, if_true]
    rw [if_pos ⟨h0, h4, h3⟩]
    dsimp only
    omega
  · intro p hno
    simp only [recvStep]
    split_ifs with h1 h2 h3
    · exact absurd ⟨h3.2.2, h3.2.1⟩ hno
    · rfl
    · rfl
    · rfl
  · intro ev
    obtain ⟨hb, hn⟩ := sendFill_spec N window s
    cases ev with
    | timeout =>
      simp only [gbnIter, recvStep]
      omega
    | recv p =>
      simp only [gbnIter, recvStep]
      split_ifs with h1 h2 h3
      · dsimp only
        rw [hb] at h3
        omega
      · omega
      · omega
      · omega
  · intro ev hinv1 hinv2
    obtain ⟨hb, hn⟩ := sendFill_spec N window s
    cases ev with
    | timeout =>
      obtain ⟨hb2, hn2⟩ :=
        sendFill_spec N window (gbnIter N window base_seq sid s GBNEvent.timeout)
      simp only [gbnIter, recvStep] at *
      omega
    | recv p =>
      obtain ⟨hb2, hn2⟩ :=
        sendFill_spec N window (gbnIter N window base_seq sid s (GBNEvent.recv p))
      simp only [gbnIter, recvStep] at *
      split_ifs at * with h1 h2 h3
      · dsimp only at *
        rw [hb] at h3
        omega
      · omega
      · omega
      · omega

/-- C4 witness: at N = 5, window = 4, base_seq = 10, sid = 7 and state
(base, next_idx) = (1, 2), the ACK for seq 12 advances base to 3, a
timeout resets next_idx to 1, and the invariant facts hold for the
timeout iteration. -/
theorem gbn_window_step_witness :
    ((recvStep 5 10 7 { base := 1, next_idx := 2 }
        (GBNEvent.recv (Packet.make TYPE_ACK 12 7 []))).base : Int)
      = ((12 : Nat) : Int) - ((10 : Nat) : Int) + 1
    ∧ (recvStep 5 10 7 { base := 1, next_idx := 2 } GBNEvent.timeout).next_idx = 1
    ∧ 1 ≤ (gbnIter 5 4 10 7 { base := 1, next_idx := 2 } GBNEvent.timeout).base := by
  obtain ⟨ha, hout, htn, htb, hmono, hinv⟩ := gbn_window_step 5 4 10 7 { base := 1, next_idx := 2 }
  exact ⟨ha (Packet.make TYPE_ACK 12 7 []) rfl rfl (by decide) (by decide),
    htn, hmono GBNEvent.timeout⟩

/-! ## server.py : session registry and handlers

The server keeps self.sessions, a dict from session_id to a per-session
dict whose keys differ by operation: DOWNLOAD sessions have
file_obj (read handle), seq_num, last_acked_seq, unacked_packet and
last_send_time; UPLOAD sessions have only file_obj (write handle) and
expected_seq.  Keys absent from a session dict are modelled with Option
(`none` = key absent) where a handler reads them with .get, and with
neutral defaults otherwise.  A read handle is the list of not yet read
bytes, a write handle the list of bytes written so far. -/

def TIMEOUT : Nat := 2

inductive Op where
  | UPLOAD
  | DOWNLOAD
  deriving DecidableEq, Repr

inductive SState where
  | TRANSFERRING
  | FIN_WAIT
  deriving DecidableEq, Repr

structure Session where
  op : Op
  state : SState
  fileRemaining : List Nat := []
  seq_num : Nat := 0
  last_acked_seq : Nat := 0
  unacked_packet : Option Packet := none
  last_send_time : Option Nat := none
  fileWritten : List Nat := []
  expected_seq : Nat := 0
  deriving DecidableEq, Repr

/-- The result of running one server handler: the new registry, the
datagrams sent, and the ids of sessions whose file handle was closed. -/
structure HandlerOut where
  sessions : List (Nat × Session)
  sent : List Packet
  closed : List Nat
  deriving DecidableEq, Repr

/-- Dict lookup self.sessions.get(sid). -/
def lookupSession (sessions : List (Nat × Session)) (sid : Nat) : Option Session :=
  (sessions.find? (fun e => e.1 == sid)).map (fun e => e.2)

/-- Dict assignment self.sessions[sid] = s. -/
def setSession : List (Nat × Session) → Nat → Session → List (Nat × Session)
  | [], sid, s => [(sid, s)]
  | e :: rest, sid, s =>
    if e.1 = sid then (sid, s) :: rest else e :: setSession rest sid s

/-- os.path.basename: the suffix after the last slash. -/
def basename (s : List Char) : List Char :=
  s.foldl (fun acc c => if c = '/' then [] else acc ++ [c]) []

/-- payload_str.split(sep, 1) unpacked into exactly two parts:
splits at the first occurrence of the bar character, None when the
separator is absent (the ValueError path of the tuple unpacking). -/
def splitBarGo (acc : List Char) : List Char → Option (List Char × List Char)
  | [] => none
  | c :: rest => if c = '|' then some (acc, rest) else splitBarGo (acc ++ [c]) rest

def splitBar (s : List Char) : Option (List Char × List Char) :=
  splitBarGo [] s

/-- UTF-8 bytes of an ASCII string (byte values = code points). -/
def strBytes (s : List Char) : List Nat :=
  s.map Char.toNat

/-- The server directory contents: filename to file bytes. -/
def lookupFs (fs : List (List Char × List Nat)) (name : List Char) : Option (List Nat) :=
  (fs.find? (fun e => e.1 == name)).map (fun e => e.2)

/-- UDPServer.send_next_data for session sid: nothing unless a
TRANSFERRING DOWNLOAD session with no unacked packet; on EOF send FIN
with seq_num + 1, enter FIN_WAIT and remember the FIN as unacked;
otherwise advance seq_num, send the next MAX_PAYLOAD_SIZE-byte chunk as
DATA and remember it as unacked.  `now` is time.time(). -/
def send_next_data (now sid : Nat) (session : Session) : Session × List Packet :=
  if session.state ≠ SState.TRANSFERRING ∨ session.op ≠ Op.DOWNLOAD then
    (session, [])
  else if session.unacked_packet.isSome then
    (session, [])
  else
    let data_chunk := session.fileRemaining.take MAX_PAYLOAD_SIZE
    if data_chunk = [] then
      let fin_pkt := Packet.make TYPE_FIN (session.seq_num + 1) sid []
      ({ session with state := SState.FIN_WAIT, unacked_packet := some fin_pkt,
                      last_send_time := some now, seq_num := session.seq_num + 1 },
       [fin_pkt])
    else
      let seq2 := session.seq_num + 1
      let data_pkt := Packet.make TYPE_DATA seq2 sid data_chunk
      ({ session with seq_num := seq2,
                      fileRemaining := session.fileRemaining.drop MAX_PAYLOAD_SIZE,
                      unacked_packet := some data_pkt, last_send_time := some now },
       [data_pkt])

/-- UDPServer.handle_syn: decode the SYN payload as "OP|FILENAME"
(ERROR "Invalid SYN payload format" echoing seq+1 when the bar is
missing); resolve the basename against the server directory; DOWNLOAD of
a missing file answers ERROR "File not found" at seq+1 without touching
the registry; DOWNLOAD of an existing file installs a fresh session,
sends SYN-ACK "OK" at seq+1 and immediately send_next_data; UPLOAD
installs a fresh session (write handle truncated, expected_seq = seq+1)
and sends SYN-ACK "OK" at seq+1.  Any other OP does nothing (no else
branch in the source).  handle_syn never closes a file handle. -/
def handle_syn (now : Nat) (fs : List (List Char × List Nat))
    (sessions : List (Nat × Session)) (seq sid : Nat)
    (payloadStr : List Char) : HandlerOut :=
  match splitBar payloadStr with
  | none =>
    { sessions := sessions
      sent := [Packet.make TYPE_ERROR (seq + 1) sid
                (strBytes "Invalid SYN payload format".data)]
      closed := [] }
  | some (op, filename) =>
    let fname := basename filename
    if op = "DOWNLOAD".data then
      match lookupFs fs fname with
      | none =>
        { sessions := sessions
          sent := [Packet.make TYPE_ERROR (seq + 1) sid (strBytes "File not found".data)]
          closed := [] }
      | some contents =>
        let fresh : Session :=
          { op := Op.DOWNLOAD, state := SState.TRANSFERRING,
            fileRemaining := contents, seq_num := seq + 1,
            last_acked_seq := seq, unacked_packet := none,
            last_send_time := some 0 }
        let syn_ack := Packet.make TYPE_SYN_ACK (seq + 1) sid (strBytes "OK".data)
        let res := send_next_data now sid fresh
        { sessions := setSession (setSession sessions sid fresh) sid res.1
          sent := syn_ack :: res.2
          closed := [] }
    else if op = "UPLOAD".data then
      let fresh : Session :=
        { op := Op.UPLOAD, state := SState.TRANSFERRING, expected_seq := seq + 1 }
      { sessions := setSession sessions sid fresh
        sent := [Packet.make TYPE_SYN_ACK (seq + 1) sid (strBytes "OK".data)]
        closed := [] }
    else
      { sessions := sessions, sent := [], closed := [] }

/-- UDPServer.handle_data: only for a TRANSFERRING UPLOAD session.
seq == expected: write payload, increment expected, ACK echoing seq;
seq < expected: duplicate, resend ACK echoing seq without writing;
seq > expected: drop silently. -/
def handle_data (packet : Packet) (session : Session) : Session × List Packet :=
  if session.op = Op.UPLOAD ∧ session.state = SState.TRANSFERRING then
    if packet.seq_num = session.expected_seq then
      ({ session with fileWritten := session.fileWritten ++ packet.payload,
                      expected_seq := session.expected_seq + 1 },
       [Packet.make TYPE_ACK packet.seq_num packet.session_id []])
    else if packet.seq_num < session.expected_seq then
      (session, [Packet.make TYPE_ACK packet.seq_num packet.session_id []])
    else
      (session, [])
  else
    (session, [])

/-- One pass of the per-session body of UDPServer.check_timeouts:
last_activity = session.get('last_send_time', current_time); retransmit
the unacked packet when current_time - last_activity > TIMEOUT,
refreshing last_send_time; flag the session stale when
current_time - last_activity > 5 * TIMEOUT (computed from the
last_activity read before the retransmission update). -/
def sweepSession (now : Nat) (s : Session) : Session × List Packet × Bool :=
  let last_activity := s.last_send_time.getD now
  let retrans :=
    if s.unacked_packet.isSome ∧ TIMEOUT < now - last_activity then
      ({ s with last_send_time := some now }, s.unacked_packet.toList)
    else
      (s, [])
  (retrans.1, retrans.2, decide (5 * TIMEOUT < now - last_activity))

/-- UDPServer.check_timeouts: sweep every session, then close and drop
the stale ones. -/
def check_timeouts (now : Nat) (sessions : List (Nat × Session)) : HandlerOut :=
  let swept := sessions.map (fun e => (e.1, sweepSession now e.2))
  { sessions := (swept.filter (fun e => !e.2.2.2)).map (fun e => (e.1, e.2.1))
    sent := (swept.map (fun e => e.2.2.1)).flatten
    closed := (swept.filter (fun e => e.2.2.2)).map (fun e => e.1) }

theorem lookupSession_setSession (sessions : List (Nat × Session)) (sid : Nat)
    (s : Session) :
    lookupSession (setSession sessions sid s) sid = some s := by
  induction sessions with
  | nil =>
    simp [setSession, lookupSession]
  | cons e rest ih =>
    by_cases h : e.1 = sid
    · simp [setSession, h, lookupSession]
    · simp only [setSession, if_neg h]
      simp only [lookupSession, List.find?_cons] at ih ⊢
      have hne : (e.1 == sid) = false := by
        simp [h]
      rw [hne]
      exact ih

/-- C3. Upload receiver stop-and-wait trichotomy: for a TRANSFERRING
UPLOAD session, a DATA packet with seq = expected_seq appends the
payload to the file, sends an ACK echoing that seq and increments
expected_seq; seq < expected_seq resends an ACK echoing the received
seq without writing; seq > expected_seq is dropped with no ACK and no
state change. -/
theorem handle_data_trichotomy (packet : Packet) (session : Session)
    (hop : session.op = Op.UPLOAD) (hst : session.state = SState.TRANSFERRING) :
    (packet.seq_num = session.expected_seq →
      handle_data packet session
        = ({ session with fileWritten := session.fileWritten ++ packet.payload,
                          expected_seq := session.expected_seq + 1 },
           [Packet.make TYPE_ACK packet.seq_num packet.session_id []]))
    ∧ (packet.seq_num < session.expected_seq →
      handle_data packet session
        = (session, [Packet.make TYPE_ACK packet.seq_num packet.session_id []]))
    ∧ (session.expected_seq < packet.seq_num →
      handle_data packet session = (session, [])) := by
  refine ⟨?_, ?_, ?_⟩
  · intro heq
    simp [handle_data, hop, hst, heq]
  · intro hlt
    have hne : packet.seq_num ≠ session.expected_seq := by omega
    simp [handle_data, hop, hst, hne, hlt]
  · intro hgt
    have hne : packet.seq_num ≠ session.expected_seq := by omega
    have hnlt : ¬ packet.seq_num < session.expected_seq := by omega
    simp [handle_data, hop, hst, hne, hnlt]

/-- C3 witness: a concrete TRANSFERRING UPLOAD session receiving the
expected DATA packet. -/
theorem handle_data_trichotomy_witness :
    handle_data (Packet.make TYPE_DATA 11 4 [1, 2])
        { op := Op.UPLOAD, state := SState.TRANSFERRING,
          fileWritten := [9], expected_seq := 11 }
      = ({ op := Op.UPLOAD, state := SState.TRANSFERRING,
           fileWritten := [9] ++ (Packet.make TYPE_DATA 11 4 [1, 2]).payload,
           expected_seq := 11 + 1 },
         [Packet.make TYPE_ACK (Packet.make TYPE_DATA 11 4 [1, 2]).seq_num
            (Packet.make TYPE_DATA 11 4 [1, 2]).session_id []]) :=
  (handle_data_trichotomy (Packet.make TYPE_DATA 11 4 [1, 2])
      { op := Op.UPLOAD, state := SState.TRANSFERRING,
        fileWritten := [9], expected_seq := 11 } rfl rfl).1 rfl

/-- C5. Handshake failure atomicity for DOWNLOAD: a valid SYN asking to
DOWNLOAD a file absent from the server directory produces exactly one
ERROR packet with payload "File not found" and seq = syn_seq + 1, the
registry is unchanged and no file handle is touched. -/
theorem syn_download_missing_file (now : Nat) (fs : List (List Char × List Nat))
    (sessions : List (Nat × Session)) (seq sid : Nat)
    (payloadStr filename : List Char)
    (hsplit : splitBar payloadStr = some ("DOWNLOAD".data, filename))
    (hmissing : lookupFs fs (basename filename) = none) :
    handle_syn now fs sessions seq sid payloadStr
      = { sessions := sessions
          sent := [Packet.make TYPE_ERROR (seq + 1) sid
                    (strBytes "File not found".data)]
          closed := [] } := by
  simp [handle_syn, hsplit, hmissing]

/-- C5 witness: DOWNLOAD of "absent.txt" against an empty directory with
one unrelated live session. -/
theorem syn_download_missing_file_witness :
    handle_syn 0 []
        [(3, { op := Op.UPLOAD, state := SState.TRANSFERRING, expected_seq := 9 })]
        42 7 "DOWNLOAD|absent.txt".data
      = { sessions :=
            [(3, { op := Op.UPLOAD, state := SState.TRANSFERRING, expected_seq := 9 })]
          sent := [Packet.make TYPE_ERROR (42 + 1) 7 (strBytes "File not found".data)]
          closed := [] } :=
  syn_download_missing_file 0 []
    [(3, { op := Op.UPLOAD, state := SState.TRANSFERRING, expected_seq := 9 })]
    42 7 "DOWNLOAD|absent.txt".data "absent.txt".data (by decide) rfl

/-- An UPLOAD session as handle_syn creates it after some received data:
its dict has no last_send_time and no unacked_packet key. -/
def idleUploadSession : Session :=
  { op := Op.UPLOAD, state := SState.TRANSFERRING,
    fileWritten := [72, 105], expected_seq := 11 }

/-- C7 (code bug witnessed): check_timeouts reads
session.get('last_send_time', current_time), and UPLOAD sessions never
store last_send_time, so their computed idle time is 0 at every sweep:
however long an UPLOAD session has been inactive, it is never closed and
never removed, contradicting the claimed 5 × TIMEOUT eviction. -/
theorem upload_session_never_evicted :
    ∀ now : Nat,
      check_timeouts now [(1, idleUploadSession)]
        = { sessions := [(1, idleUploadSession)], sent := [], closed := [] } := by
  intro now
  simp [check_timeouts, sweepSession, idleUploadSession, TIMEOUT]

/-- C10. Duplicate-SYN session replacement: every valid SYN whose
session_id is already live unconditionally installs a fresh session over
the old entry, re-sends SYN-ACK, and closes no file handle (the old
session's handle is simply dropped).  For UPLOAD the write handle is
re-opened in truncating mode (file contents reset to empty) and
expected_seq reset to syn_seq + 1; for DOWNLOAD of an existing file the
read handle is re-opened at the full contents, the sequence state reset
to seq_num = syn_seq + 1 / last_acked_seq = syn_seq with no unacked
packet, and the first chunk is sent again through send_next_data. -/
theorem duplicate_syn_overwrites (now : Nat) (fs : List (List Char × List Nat))
    (sessions : List (Nat × Session)) (seq sid : Nat)
    (payloadStr filename : List Char) (old : Session)
    (hlive : lookupSession sessions sid = some old) :
    (splitBar payloadStr = some ("UPLOAD".data, filename) →
      (handle_syn now fs sessions seq sid payloadStr).sent
          = [Packet.make TYPE_SYN_ACK (seq + 1) sid (strBytes "OK".data)]
      ∧ (handle_syn now fs sessions seq sid payloadStr).closed = []
      ∧ lookupSession (handle_syn now fs sessions seq sid payloadStr).sessions sid
          = some { op := Op.UPLOAD, state := SState.TRANSFERRING,
                   expected_seq := seq + 1 })
    ∧ (∀ contents,
        splitBar payloadStr = some ("DOWNLOAD".data, filename) →
        lookupFs fs (basename filename) = some contents →
        (handle_syn now fs sessions seq sid payloadStr).sent
            = Packet.make TYPE_SYN_ACK (seq + 1) sid (strBytes "OK".data)
              :: (send_next_data now sid
                    { op := Op.DOWNLOAD, state := SState.TRANSFERRING,
                      fileRemaining := contents, seq_num := seq + 1,
                      last_acked_seq := seq, last_send_time := some 0 }).2
        ∧ (handle_syn now fs sessions seq sid payloadStr).closed = []
        ∧ lookupSession (handle_syn now fs sessions seq sid payloadStr).sessions sid
            = some (send_next_data now sid
                { op := Op.DOWNLOAD, state := SState.TRANSFERRING,
                  fileRemaining := contents, seq_num := seq + 1,
                  last_acked_seq := seq, last_send_time := some 0 }).1) := by
  constructor
  · intro hsplit
    have hne : ("UPLOAD".data : List Char) ≠ "DOWNLOAD".data := by decide
    simp [handle_syn, hsplit, hne, lookupSession_setSession]
  · intro contents hsplit hfound
    simp [handle_syn, hsplit, hfound, lookupSession_setSession]

/-- A DOWNLOAD session mid-transfer, used as the pre-existing entry. -/
def liveOldSession : Session :=
  { op := Op.DOWNLOAD, state := SState.TRANSFERRING, fileRemaining := [1, 2],
    seq_num := 3, last_acked_seq := 2, last_send_time := some 0 }

/-- C10 witness: a duplicate UPLOAD SYN on live session 9 replaces it
and answers SYN-ACK, and a duplicate DOWNLOAD SYN for an existing file
on the same live session replaces it with a freshly reset download
session. -/
theorem duplicate_syn_overwrites_witness :
    ((handle_syn 5 [] [(9, liveOldSession)] 20 9 "UPLOAD|notes.txt".data).sent
        = [Packet.make TYPE_SYN_ACK (20 + 1) 9 (strBytes "OK".data)]
      ∧ (handle_syn 5 [] [(9, liveOldSession)] 20 9 "UPLOAD|notes.txt".data).closed
        = []
      ∧ lookupSession
          (handle_syn 5 [] [(9, liveOldSession)] 20 9
            "UPLOAD|notes.txt".data).sessions 9
        = some { op := Op.UPLOAD, state := SState.TRANSFERRING,
                 expected_seq := 20 + 1 })
    ∧ ((handle_syn 5 [("data.bin".data, [1, 2, 3])] [(9, liveOldSession)] 20 9
          "DOWNLOAD|data.bin".data).sent
        = Packet.make TYPE_SYN_ACK (20 + 1) 9 (strBytes "OK".data)
          :: (send_next_data 5 9
                { op := Op.DOWNLOAD, state := SState.TRANSFERRING,
                  fileRemaining := [1, 2, 3], seq_num := 20 + 1,
                  last_acked_seq := 20, last_send_time := some 0 }).2
      ∧ (handle_syn 5 [("data.bin".data, [1, 2, 3])] [(9, liveOldSession)] 20 9
          "DOWNLOAD|data.bin".data).closed = []
      ∧ lookupSession
          (handle_syn 5 [("data.bin".data, [1, 2, 3])] [(9, liveOldSession)] 20 9
            "DOWNLOAD|data.bin".data).sessions 9
        = some (send_next_data 5 9
            { op := Op.DOWNLOAD, state := SState.TRANSFERRING,
              fileRemaining := [1, 2, 3], seq_num := 20 + 1,
              last_acked_seq := 20, last_send_time := some 0 }).1) :=
  ⟨(duplicate_syn_overwrites 5 [] [(9, liveOldSession)] 20 9
      "UPLOAD|notes.txt".data "notes.txt".data liveOldSession rfl).1 (by decide),
   (duplicate_syn_overwrites 5 [("data.bin".data, [1, 2, 3])] [(9, liveOldSession)]
      20 9 "DOWNLOAD|data.bin".data "data.bin".data liveOldSession rfl).2
     [1, 2, 3] (by decide) (by decide)⟩
